import Mathlib

/-!
# Verification of the portfolio site's interactive behaviors

A shallow embedding, in Lean 4, of the behavioral parts of the site's
main script: the particle canvas (`Particle.update`, the pairwise
connecting-line pass of `animateNetwork`), the theme-toggle click
handler, the projects/organizations card renderers, and the
`TextScramble` class (`setText` / `update`).

Conventions of the embedding:
* JavaScript numbers are modelled as exact rationals (`ℚ`); claims about
  floating-point tolerance become exact equalities.
* JavaScript strings indexed per character (`text[i]`) are modelled as
  `List Char`; `text[i] || ''` becomes `(text[i]?).toList`.
* `Math.random()` draws are passed in as explicit oracle arguments
  (a function from the draw's index to its value), with the range of
  each draw recorded as a hypothesis where a claim needs it.
* The browser event loop (animation-frame scheduling, promise
  resolution) is modelled as an explicit state machine with an event
  trace; `requestAnimationFrame` ids and promise identities are `ℕ`.
-/

/-! ## Particle canvas (`class Particle`, `animateNetwork`) -/

/-- One particle of the neural-network canvas: position `(x, y)`,
velocity `(vx, vy)` and radius `size`, as in `class Particle`. -/
structure Particle where
  x : ℚ
  y : ℚ
  vx : ℚ
  vy : ℚ
  size : ℚ
deriving DecidableEq, Repr

/-- `Particle.update` for a canvas of extent `w × h`:
`this.x += this.vx; this.y += this.vy;
if (this.x < 0 || this.x > width) this.vx *= -1;
if (this.y < 0 || this.y > height) this.vy *= -1`.
The position is moved first and the bounds test reads the moved
position; the position itself is never clamped. -/
def Particle.update (w h : ℚ) (p : Particle) : Particle :=
  let x := p.x + p.vx
  let y := p.y + p.vy
  let vx := if x < 0 ∨ x > w then -p.vx else p.vx
  let vy := if y < 0 ∨ y > h then -p.vy else p.vy
  ⟨x, y, vx, vy, p.size⟩

/-- `n` iterations of `Particle.update` (one per animation frame). -/
def Particle.updateN (w h : ℚ) : ℕ → Particle → Particle
  | 0, p => p
  | n + 1, p => Particle.updateN w h n (p.update w h)

/-- Negating both velocity components of a particle. -/
def Particle.negVel (p : Particle) : Particle :=
  { p with vx := -p.vx, vy := -p.vy }

/-- The particle's position lies strictly inside the `w × h` canvas. -/
def Particle.strictlyInside (w h : ℚ) (p : Particle) : Prop :=
  0 < p.x ∧ p.x < w ∧ 0 < p.y ∧ p.y < h

instance (w h : ℚ) (p : Particle) : Decidable (p.strictlyInside w h) := by
  unfold Particle.strictlyInside; infer_instance

/-- Squared distance between two particles, from the line pass of
`animateNetwork`: `dx = p.x - p2.x; dy = p.y - p2.y`, and the radicand
of `dist = Math.sqrt(dx*dx + dy*dy)`. -/
def distSq (p q : Particle) : ℚ :=
  (p.x - q.x) * (p.x - q.x) + (p.y - q.y) * (p.y - q.y)

/-- The guard of the line pass, `if (dist < 120)` with
`dist = Math.sqrt(dx*dx + dy*dy)`.  Since `dist` and `120` are both
nonnegative, `Math.sqrt(d) < 120` holds exactly when `d < 120²`, which
is the decidable form used here; the equivalence with the square-root
form is proved below, not assumed. -/
def drawsLine (p q : Particle) : Bool :=
  decide (distSq p q < 120 * 120)

/-- Placeholder particle for out-of-range list indexing. -/
def defaultParticle : Particle := ⟨0, 0, 0, 0, 0⟩

/-- The index pairs `(i, j)` for which one frame of `animateNetwork`
draws a connecting line: the outer `forEach` visits every index `i`,
the inner loop visits `j` from `i + 1` upward, and a segment is drawn
exactly when the distance guard passes. -/
def linesDrawn (ps : List Particle) : List (ℕ × ℕ) :=
  (List.range ps.length).flatMap fun i =>
    ((List.range ps.length).filter fun j =>
        decide (i < j) && drawsLine (ps.getD i defaultParticle) (ps.getD j defaultParticle)).map
      fun j => (i, j)

/-! ## Theme toggle -/

/-- The theme-relevant page state: the `data-theme` attribute of the
root element (`getAttribute` may return `null`, hence `Option`), the
`localStorage` entry under key `theme` (absent or a string), whether
the sun icon is displayed (`updateThemeIcon`), and the canvas's cached
theme (`window.updateCanvasTheme` target). -/
structure ThemeState where
  attr : Option String
  storage : Option String
  sunShown : Bool
  canvasTheme : String
deriving DecidableEq, Repr

/-- `updateThemeIcon(theme)`: the sun icon is hidden exactly when the
theme is `'light'` (then the moon is shown), otherwise shown. -/
def updateThemeIcon (theme : String) : Bool :=
  ¬ theme = "light"

/-- The `themeToggle` click handler:
`currentTheme = html.getAttribute('data-theme')`;
`newTheme = currentTheme === 'dark' ? 'light' : 'dark'`; then the
attribute, the persisted storage, the icon and the canvas theme are all
set to `newTheme` (the canvas through `window.updateCanvasTheme`). -/
def themeToggleClick (s : ThemeState) : ThemeState :=
  let newTheme := if s.attr = some "dark" then "light" else "dark"
  { attr := some newTheme
    storage := some newTheme
    sunShown := updateThemeIcon newTheme
    canvasTheme := newTheme }

/-! ## Content tables and card renderers (`data.js`, render blocks) -/

/-- One record of the `projects` table of `data.js`. -/
structure ProjectRecord where
  title : String
  description : String
  tags : List String
  link : String
deriving DecidableEq, Repr

/-- One record of the `organizations` table of `data.js`. -/
structure OrgRecord where
  name : String
  description : String
  icon : String
  link : String
deriving DecidableEq, Repr

/-- A rendered DOM card: its class attribute and its `innerHTML`. -/
structure Card where
  className : String
  html : String
deriving DecidableEq, Repr

/-- The `<span class="tag">` fragment for one tag, from the template of
the projects render block. -/
def tagSpan (tag : String) : String :=
  "<span class=\"tag\">" ++ tag ++ "</span>"

/-- The card a projects-loop iteration builds: a `div` with class
`project-card` whose `innerHTML` interpolates the record's fields into
the template of the render block. -/
def mkProjectCard (p : ProjectRecord) : Card :=
  { className := "project-card"
    html :=
      "<div class=\"project-content\"><h3 class=\"project-title\">" ++ p.title ++
      "</h3><p class=\"project-desc\">" ++ p.description ++
      "</p></div><div class=\"project-footer\"><div class=\"project-tags\">" ++
      String.join (p.tags.map tagSpan) ++
      "</div><a href=\"" ++ p.link ++
      "\" target=\"_blank\" class=\"project-link-icon\" aria-label=\"View Project\"></a></div>" }

/-- The card an organizations-loop iteration builds. -/
def mkOrgCard (o : OrgRecord) : Card :=
  { className := "org-card"
    html :=
      "<div class=\"org-icon\"><img src=\"" ++ o.icon ++ "\" alt=\"" ++ o.name ++
      "\"></div><div class=\"org-info\"><h3>" ++ o.name ++ "</h3><p>" ++ o.description ++
      "</p><a href=\"" ++ o.link ++
      "\" target=\"_blank\" class=\"org-link\">View Organization &rarr;</a></div>" }

/-- The projects render block.  `document.getElementById` may find no
container (`Option`); when present, `innerHTML = ''` clears it and the
`forEach` appends one card per record with `appendChild`.  When absent,
the whole block is skipped. -/
def renderProjects (container : Option (List Card)) (records : List ProjectRecord) :
    Option (List Card) :=
  match container with
  | none => none
  | some _ => some (records.foldl (fun acc p => acc ++ [mkProjectCard p]) [])

/-- The organizations render block, same shape as `renderProjects`. -/
def renderOrgs (container : Option (List Card)) (records : List OrgRecord) :
    Option (List Card) :=
  match container with
  | none => none
  | some _ => some (records.foldl (fun acc o => acc ++ [mkOrgCard o]) [])

/-- The `projects` table of `data.js`. -/
def projects : List ProjectRecord :=
  [ { title := "go-utcp"
      description := "The official Go implementation of the Universal Tool Calling Protocol, enabling standardized tool usage across AI agents."
      tags := ["Go", "AI", "Protocol", "Standard"]
      link := "https://github.com/universal-tool-calling-protocol/go-utcp" }
  , { title := "Thunder"
      description := "A minimalist Go backend framework designed to convert gRPC services into REST and GraphQL APIs effortlessly."
      tags := ["Go", "gRPC", "GraphQL", "Framework"]
      link := "https://github.com/Protocol-Lattice/thunder" }
  , { title := "GoEventBus"
      description := "A high-performance, lock-free event bus for Go, optimized for real-time pipelines and microservices architectures."
      tags := ["Go", "Concurrency", "Event Bus", "Performance"]
      link := "https://github.com/Protocol-Lattice/GoEventBus" }
  , { title := "go-agent"
      description := "A flexible and powerful AI agent framework for Go, built to leverage the Protocol Lattice ecosystem."
      tags := ["Go", "AI", "Agents", "Lattice"]
      link := "https://github.com/Protocol-Lattice/go-agent" }
  , { title := "lattice-code"
      description := "AI agents for software creation, offering tools for high-level design, feature implementation, and code analysis."
      tags := ["AI", "Agents", "Software Engineering", "Lattice"]
      link := "https://github.com/Protocol-Lattice/lattice-code" }
  , { title := "memory-bank-mcp"
      description := "A robust memory bank implementation for the Model Context Protocol (MCP), built in Go."
      tags := ["Go", "MCP", "Memory", "AI"]
      link := "https://github.com/Protocol-Lattice/memory-bank-mcp" }
  , { title := "grpc-graphql-gateway"
      description := "A protoc plugin that automatically generates GraphQL execution code from Protocol Buffers definitions."
      tags := ["Go", "Protobuf", "GraphQL", "Code Gen"]
      link := "https://github.com/Raezil/grpc-graphql-gateway" }
  , { title := "vibe"
      description := "An advanced coding tool leveraging Google Gemini to support protobuf gRPC gateway files and Prisma schemas."
      tags := ["AI", "Gemini", "Go", "Prisma"]
      link := "https://github.com/Raezil/vibe" } ]

/-- The `organizations` table of `data.js`. -/
def organizations : List OrgRecord :=
  [ { name := "Universal Tool Calling Protocol"
      description := "Member of the organization defining the open standard for AI tool interactions and discovery."
      icon := "https://github.com/universal-tool-calling-protocol.png"
      link := "https://github.com/universal-tool-calling-protocol" }
  , { name := "Protocol Lattice"
      description := "Developing open standards and tools for AI interaction, memory, and tooling."
      icon := "https://github.com/Protocol-Lattice.png"
      link := "https://github.com/Protocol-Lattice" } ]

/-! ## Text scramble (`class TextScramble`) -/

/-- One entry of `this.queue` in `TextScramble.setText`: the source and
target characters for one slot (`oldText[i] || ''` and
`newText[i] || ''`, so an empty list when the text is too short), the
first frame at which the slot scrambles (`start`) and the frame at
which it settles (`end`, renamed `stop`: `end` is a Lean keyword). -/
structure Slot where
  fromC : List Char
  toC : List Char
  start : ℕ
  stop : ℕ
deriving DecidableEq, Repr

/-- The queue `setText(newText)` builds from the element's current text
`oldT`: one slot per index below `Math.max(oldText.length,
newText.length)`, with `start = Math.floor(Math.random() * 40)` and
`end = start + Math.floor(Math.random() * 40)`.  The two random draws
of slot `i` are supplied by the oracle as `rands i`. -/
def buildQueue (oldT newT : List Char) (rands : ℕ → ℕ × ℕ) : List Slot :=
  (List.range (max oldT.length newT.length)).map fun i =>
    { fromC := (oldT[i]?).toList
      toC := (newT[i]?).toList
      start := (rands i).1
      stop := (rands i).1 + (rands i).2 }

/-- The `<span class="dud">…</span>` fragment around a scramble glyph. -/
def dudSpan (c : Char) : List Char :=
  "<span class=\"dud\">".data ++ [c] ++ "</span>".data

/-- The contribution of slot `i` to the `output` string of
`TextScramble.update` at frame `frame`: the target character once
`frame >= end`, a scramble glyph in a `dud` span while
`frame >= start`, and the source character before that.  The glyph
choice (`randomChar` with the 0.28 re-roll) is abstracted into the
oracle `charOf`. -/
def slotOutput (frame : ℕ) (charOf : ℕ → Char) (i : ℕ) (s : Slot) : List Char :=
  if s.stop ≤ frame then s.toC
  else if s.start ≤ frame then dudSpan (charOf i)
  else s.fromC

/-- Placeholder slot for out-of-range list indexing. -/
def defaultSlot : Slot := ⟨[], [], 0, 0⟩

/-- The full `output` that one call of `TextScramble.update` assigns to
`this.el.innerHTML` at frame `frame`: the loop
`for (let i = 0, n = this.queue.length; i < n; i++)` concatenates the
slots' contributions in index order. -/
def updateOutput (queue : List Slot) (frame : ℕ) (charOf : ℕ → Char) : List Char :=
  ((List.range queue.length).map fun i =>
    slotOutput frame charOf i (queue.getD i defaultSlot)).flatten

/-- The `complete` counter of `TextScramble.update`: the number of
slots with `this.frame >= end`. -/
def completeCount (queue : List Slot) (frame : ℕ) : ℕ :=
  queue.countP fun s => s.stop ≤ frame

/-- The scheduling- and promise-relevant state of one `TextScramble`
instance together with the browser bookkeeping it touches:
`queue`/`frame` as in the class; `pending` the ids of this instance's
animation-frame callbacks the browser still holds (granted by
`requestAnimationFrame`, ids from the counter `nextId`);
`frameRequest` the id stored in `this.frameRequest`; `resolveSlot` the
identity of the promise whose `resolve` currently sits in
`this.resolve` (identities from the counter `nextPromise`); `resolved`
the promises resolved so far, in order. -/
structure ScrState where
  queue : List Slot
  frame : ℕ
  pending : List ℕ
  frameRequest : ℕ
  nextId : ℕ
  resolveSlot : ℕ
  nextPromise : ℕ
  resolved : List ℕ
deriving DecidableEq, Repr

/-- One synchronous run of `TextScramble.update` (its effect on the
scheduling state; the `output` it displays is `updateOutput`): when
`complete === this.queue.length` it calls `this.resolve()`, otherwise
it stores a fresh `requestAnimationFrame` id in `this.frameRequest`
and increments `this.frame`. -/
def updateStep (s : ScrState) : ScrState :=
  if completeCount s.queue s.frame = s.queue.length then
    { s with resolved := s.resolved ++ [s.resolveSlot] }
  else
    { s with
        pending := s.pending ++ [s.nextId]
        frameRequest := s.nextId
        nextId := s.nextId + 1
        frame := s.frame + 1 }

/-- One call of `setText(newText)` on an element showing `oldT`: a new
promise is created and its `resolve` overwrites `this.resolve`; the
queue is rebuilt; `cancelAnimationFrame(this.frameRequest)` removes
the pending callback with that id, if any; `this.frame = 0`; and
`this.update()` runs once synchronously. -/
def setTextStep (oldT newT : List Char) (rands : ℕ → ℕ × ℕ) (s : ScrState) : ScrState :=
  updateStep
    { s with
        resolveSlot := s.nextPromise
        nextPromise := s.nextPromise + 1
        queue := buildQueue oldT newT rands
        pending := s.pending.filter fun id => id ≠ s.frameRequest
        frame := 0 }

/-- The browser delivers one pending animation-frame callback of this
instance, which runs `TextScramble.update`.  With nothing pending,
nothing happens. -/
def fireStep (s : ScrState) : ScrState :=
  match s.pending with
  | [] => s
  | _ :: rest => updateStep { s with pending := rest }

/-- The events that can reach one `TextScramble` instance: a `setText`
call (with the element's current text and the random draws it will
consume) or the delivery of its pending frame callback. -/
inductive ScrEvent where
  | setText (oldT newT : List Char) (rands : ℕ → ℕ × ℕ)
  | fire

/-- One event's effect on the instance state. -/
def scrStep (s : ScrState) : ScrEvent → ScrState
  | .setText o n r => setTextStep o n r s
  | .fire => fireStep s

/-- Running a whole event trace. -/
def scrRun (s : ScrState) (evs : List ScrEvent) : ScrState :=
  evs.foldl scrStep s

/-- A fresh instance, before any `setText`: no queue, nothing pending,
no promise created yet (`this.frameRequest` and `this.resolve` are
`undefined`; `cancelAnimationFrame(undefined)` is a no-op, matched
here by `pending = []`). -/
def scrInit : ScrState :=
  { queue := [], frame := 0, pending := [], frameRequest := 0
    nextId := 0, resolveSlot := 0, nextPromise := 0, resolved := [] }

/-! ## Theorems -/

/-- One `Particle.update` step leaves the magnitude of each velocity
component unchanged: the step either keeps the component or negates it. -/
lemma Particle.update_abs_vel (w h : ℚ) (p : Particle) :
    |(p.update w h).vx| = |p.vx| ∧ |(p.update w h).vy| = |p.vy| := by
  constructor <;> simp only [Particle.update] <;> split <;> simp [abs_neg]

/-- C9: for every particle and every number of update steps, `|vx|` and
`|vy|` are invariant: each step either keeps a velocity component or
negates it, never changing its magnitude. -/
theorem particle_speed_invariant_C9 (w h : ℚ) (p : Particle) (n : ℕ) :
    |(Particle.updateN w h n p).vx| = |p.vx| ∧ |(Particle.updateN w h n p).vy| = |p.vy| := by
  induction n generalizing p with
  | zero => exact ⟨rfl, rfl⟩
  | succ n ih =>
    exact ⟨((ih (p.update w h)).1).trans (Particle.update_abs_vel w h p).1,
           ((ih (p.update w h)).2).trans (Particle.update_abs_vel w h p).2⟩

/-- C4: for a particle whose position stays strictly inside the canvas
(before and after the first step, so no wall bounce fires), one update
step, then negating both velocity components, then one more update
step returns the position exactly to the original one (exact rational
arithmetic; the floating-point tolerance of the claim is met with
slack zero). -/
theorem particle_update_reversible_C4 (w h : ℚ) (p : Particle)
    (h1 : p.strictlyInside w h) (h2 : (p.update w h).strictlyInside w h) :
    (((p.update w h).negVel).update w h).x = p.x ∧
    (((p.update w h).negVel).update w h).y = p.y := by
  obtain ⟨hx0, hxw, hy0, hyh⟩ := h2
  have hxc : ¬(p.x + p.vx < 0 ∨ p.x + p.vx > w) := by
    push_neg; exact ⟨le_of_lt hx0, le_of_lt hxw⟩
  have hyc : ¬(p.y + p.vy < 0 ∨ p.y + p.vy > h) := by
    push_neg; exact ⟨le_of_lt hy0, le_of_lt hyh⟩
  constructor
  · show (p.x + p.vx) + -(if p.x + p.vx < 0 ∨ p.x + p.vx > w then -p.vx else p.vx) = p.x
    rw [if_neg hxc]; ring
  · show (p.y + p.vy) + -(if p.y + p.vy < 0 ∨ p.y + p.vy > h then -p.vy else p.vy) = p.y
    rw [if_neg hyc]; ring

/-- Witness for C4 at a concrete interior particle. -/
theorem particle_update_reversible_C4_witness :
    ((((⟨50, 50, 1, 1, 1⟩ : Particle).update 100 100).negVel).update 100 100).x = 50 ∧
    ((((⟨50, 50, 1, 1, 1⟩ : Particle).update 100 100).negVel).update 100 100).y = 50 :=
  particle_update_reversible_C4 100 100 ⟨50, 50, 1, 1, 1⟩
    (by norm_num [Particle.strictlyInside])
    (by norm_num [Particle.strictlyInside, Particle.update])

/-- C10: one theme toggle yields `'dark'` whenever the current
`data-theme` attribute is anything other than exactly `'dark'` (absent
or unrecognized included), and `'light'` otherwise; consequently after
any toggle the attribute is in `{light, dark}` and the persisted value
equals it. -/
theorem theme_toggle_range_C10 (s : ThemeState) :
    ((s.attr ≠ some "dark" → (themeToggleClick s).attr = some "dark") ∧
     (s.attr = some "dark" → (themeToggleClick s).attr = some "light")) ∧
    ((themeToggleClick s).attr = some "light" ∨ (themeToggleClick s).attr = some "dark") ∧
    (themeToggleClick s).storage = (themeToggleClick s).attr := by
  by_cases hd : s.attr = some "dark" <;> simp [themeToggleClick, hd]

/-- Witness for C10 at an unrecognized stored theme value. -/
theorem theme_toggle_range_C10_witness :
    (themeToggleClick ⟨some "weird", none, true, "dark"⟩).attr = some "dark" :=
  (theme_toggle_range_C10 ⟨some "weird", none, true, "dark"⟩).1.1 (by decide)

/-- C5 counterexample: starting from the page-load state with the
default theme (`data-theme='dark'`) and no persisted entry, two
toggles leave `localStorage.theme = 'dark'`, not the original absent
entry — so the double toggle does not restore the persisted value for
every initial state. -/
theorem theme_toggle_not_involution_C5 :
    ¬ ((themeToggleClick (themeToggleClick ⟨some "dark", none, true, "dark"⟩)).storage =
        (⟨some "dark", none, true, "dark"⟩ : ThemeState).storage) := by
  decide

/-- C5 (amended): when the current attribute is one of the two
recognized themes and the persisted value already equals it, toggling
twice restores both the theme attribute and the persisted value. -/
theorem theme_toggle_involution_C5_amended (s : ThemeState)
    (h : s.attr = some "light" ∨ s.attr = some "dark") (hs : s.storage = s.attr) :
    (themeToggleClick (themeToggleClick s)).attr = s.attr ∧
    (themeToggleClick (themeToggleClick s)).storage = s.storage := by
  rcases h with h | h <;> simp [themeToggleClick, h, hs]

/-- Witness for the amended C5 at the dark/dark state. -/
theorem theme_toggle_involution_C5_amended_witness :
    (themeToggleClick (themeToggleClick ⟨some "dark", some "dark", true, "dark"⟩)).attr
        = some "dark" ∧
    (themeToggleClick (themeToggleClick ⟨some "dark", some "dark", true, "dark"⟩)).storage
        = some "dark" :=
  theme_toggle_involution_C5_amended ⟨some "dark", some "dark", true, "dark"⟩
    (Or.inr rfl) rfl

/-- Appending one image of each element to an accumulator, in order, is
the accumulator followed by the map. -/
lemma foldl_append_eq_map {α β : Type} (f : α → β) :
    ∀ (l : List α) (acc : List β),
      l.foldl (fun a x => a ++ [f x]) acc = acc ++ l.map f
  | [], _ => by simp
  | x :: xs, acc => by
    simp [List.foldl_cons, foldl_append_eq_map f xs]

/-- C6: rendering into a present container replaces its prior content
with exactly one card per record, in table order (the result is the map
of the card builder over the records, independent of the prior
content, and has one entry per record). -/
theorem render_cards_C6 (priorP priorO : List Card)
    (projRecords : List ProjectRecord) (orgRecords : List OrgRecord) :
    renderProjects (some priorP) projRecords = some (projRecords.map mkProjectCard) ∧
    renderOrgs (some priorO) orgRecords = some (orgRecords.map mkOrgCard) ∧
    (projRecords.map mkProjectCard).length = projRecords.length ∧
    (orgRecords.map mkOrgCard).length = orgRecords.length := by
  refine ⟨?_, ?_, by simp, by simp⟩ <;>
    simp [renderProjects, renderOrgs, foldl_append_eq_map]

/-- C7: with the container element absent, rendering is skipped
entirely: the result is still the absent container, no card is built,
and (the render functions being total) no error is raised. -/
theorem render_skip_missing_C7 (projRecords : List ProjectRecord)
    (orgRecords : List OrgRecord) :
    renderProjects none projRecords = none ∧ renderOrgs none orgRecords = none :=
  ⟨rfl, rfl⟩

/-- The decidable guard of `drawsLine` agrees with the source's
square-root comparison `Math.sqrt(dx*dx + dy*dy) < 120`. -/
lemma drawsLine_iff_sqrt (p q : Particle) :
    drawsLine p q = true ↔ Real.sqrt ((distSq p q : ℝ)) < 120 := by
  have h14400 : ((120 * 120 : ℚ) : ℝ) = 120 ^ 2 := by norm_num
  rw [drawsLine, decide_eq_true_iff, Real.sqrt_lt' (by norm_num : (0:ℝ) < 120),
    ← h14400, Rat.cast_lt]

/-- Index characterization of the line pass: `(i, j)` gets a line
exactly when it is an in-range pair with `i < j` passing the distance
guard. -/
lemma mem_linesDrawn (ps : List Particle) (i j : ℕ) :
    (i, j) ∈ linesDrawn ps ↔
      j < ps.length ∧ i < j ∧
        drawsLine (ps.getD i defaultParticle) (ps.getD j defaultParticle) = true := by
  simp only [linesDrawn, List.mem_flatMap, List.mem_map, List.mem_filter, List.mem_range,
    Bool.and_eq_true, decide_eq_true_iff, Prod.mk.injEq]
  constructor
  · rintro ⟨a, _, b, ⟨hb, hab, hdl⟩, hai, hbj⟩
    subst hai; subst hbj
    exact ⟨hb, hab, hdl⟩
  · rintro ⟨hj, hij, hdl⟩
    exact ⟨i, lt_trans hij hj, j, ⟨hj, hij, hdl⟩, rfl, rfl⟩

/-- C3: a frame of `animateNetwork` draws a connecting line for an
unordered pair of distinct particles (indices `i < j`) precisely when
the Euclidean distance between their positions is strictly below 120;
at distance exactly 120 no line is drawn. -/
theorem network_line_threshold_C3 (ps : List Particle) (i j : ℕ) :
    ((i, j) ∈ linesDrawn ps ↔
      j < ps.length ∧ i < j ∧
        Real.sqrt ((distSq (ps.getD i defaultParticle) (ps.getD j defaultParticle) : ℝ)) < 120) ∧
    (Real.sqrt ((distSq (ps.getD i defaultParticle) (ps.getD j defaultParticle) : ℝ)) = 120 →
      (i, j) ∉ linesDrawn ps) := by
  have hiff := drawsLine_iff_sqrt (ps.getD i defaultParticle) (ps.getD j defaultParticle)
  constructor
  · rw [mem_linesDrawn, hiff]
  · intro h120 hmem
    have hlt := ((mem_linesDrawn ps i j).mp hmem).2.2
    rw [hiff, h120] at hlt
    exact lt_irrefl _ hlt

/-- Witness for C3: two particles exactly 120 apart get no line. -/
theorem network_line_threshold_C3_witness :
    (0, 1) ∉ linesDrawn [⟨0, 0, 0, 0, 1⟩, ⟨120, 0, 0, 0, 1⟩] :=
  (network_line_threshold_C3 [⟨0, 0, 0, 0, 1⟩, ⟨120, 0, 0, 0, 1⟩] 0 1).2 (by
    have hd : ((distSq (List.getD [⟨0, 0, 0, 0, 1⟩, ⟨120, 0, 0, 0, 1⟩] 0 defaultParticle)
        (List.getD [⟨0, 0, 0, 0, 1⟩, ⟨120, 0, 0, 0, 1⟩] 1 defaultParticle) : ℚ) : ℝ) = 14400 := by
      norm_num [distSq, List.getD_cons_zero, List.getD_cons_succ]
    rw [hd, show (14400:ℝ) = 120 ^ 2 by norm_num,
      Real.sqrt_sq (by norm_num : (0:ℝ) ≤ 120)])

/-- Concatenating the per-index character slices of a text over the
indices `0, …, L-1` yields the first `L` characters of the text. -/
lemma flatten_range_toList (newT : List Char) (L : ℕ) :
    ((List.range L).map fun i => (newT[i]?).toList).flatten = newT.take L := by
  induction L with
  | zero => simp
  | succ n ih =>
    rw [List.range_succ, List.map_append, List.flatten_append, ih, List.take_succ]
    simp

/-- The length of the queue `setText` builds. -/
lemma buildQueue_length (oldT newT : List Char) (rands : ℕ → ℕ × ℕ) :
    (buildQueue oldT newT rands).length = max oldT.length newT.length := by
  simp [buildQueue]

/-- The `i`-th slot of the queue `setText` builds, for `i` in range. -/
lemma buildQueue_getD (oldT newT : List Char) (rands : ℕ → ℕ × ℕ) (i : ℕ)
    (h : i < max oldT.length newT.length) :
    (buildQueue oldT newT rands).getD i defaultSlot =
      ⟨(oldT[i]?).toList, (newT[i]?).toList, (rands i).1, (rands i).1 + (rands i).2⟩ := by
  unfold buildQueue
  rw [List.getD_eq_getElem?_getD, List.getElem?_map, List.getElem?_range h]
  rfl

/-- C1: `setText(newText)` on an element showing `oldT` builds a queue
with exactly `max (length oldT) (length newT)` slots; with the two
random draws of every slot below 40, each slot's `start` lies in
`[0, 40)` and its `end` exceeds `start` by a value in `[0, 40)`; and at
any frame count at or past every slot's `end`, the displayed output of
`update` is exactly the new text and the `complete` counter reaches the
queue length (so the animation settles on `newText` and resolves). -/
theorem scramble_setText_C1 (oldT newT : List Char) (rands : ℕ → ℕ × ℕ)
    (hr : ∀ i, (rands i).1 < 40 ∧ (rands i).2 < 40) :
    (buildQueue oldT newT rands).length = max oldT.length newT.length ∧
    (∀ s ∈ buildQueue oldT newT rands,
      s.start < 40 ∧ s.start ≤ s.stop ∧ s.stop - s.start < 40) ∧
    (∀ (f : ℕ) (charOf : ℕ → Char), (∀ s ∈ buildQueue oldT newT rands, s.stop ≤ f) →
      updateOutput (buildQueue oldT newT rands) f charOf = newT ∧
      completeCount (buildQueue oldT newT rands) f = (buildQueue oldT newT rands).length) := by
  refine ⟨buildQueue_length oldT newT rands, ?_, ?_⟩
  · intro s hs
    simp only [buildQueue, List.mem_map, List.mem_range] at hs
    obtain ⟨i, hi, rfl⟩ := hs
    exact ⟨(hr i).1, Nat.le_add_right _ _, by simpa using (hr i).2⟩
  · intro f charOf hstop
    constructor
    · unfold updateOutput
      rw [buildQueue_length]
      have hmap : ((List.range (max oldT.length newT.length)).map fun i =>
            slotOutput f charOf i ((buildQueue oldT newT rands).getD i defaultSlot)) =
          (List.range (max oldT.length newT.length)).map fun i => (newT[i]?).toList := by
        apply List.map_congr_left
        intro i hi
        rw [List.mem_range] at hi
        rw [buildQueue_getD oldT newT rands i hi]
        have hmem : (⟨(oldT[i]?).toList, (newT[i]?).toList, (rands i).1,
            (rands i).1 + (rands i).2⟩ : Slot) ∈ buildQueue oldT newT rands := by
          simp only [buildQueue, List.mem_map, List.mem_range]
          exact ⟨i, hi, rfl⟩
        simp only [slotOutput]
        rw [if_pos (hstop _ hmem)]
      rw [hmap, flatten_range_toList, List.take_of_length_le (le_max_right _ _)]
    · rw [completeCount, List.countP_eq_length]
      intro s hs
      simpa using hstop s hs

/-- Witness for C1: `setText("abc")` on an element showing `"xy"` with
all random draws zero gives a queue of length 3 that displays `"abc"`
at frame 0 already. -/
theorem scramble_setText_C1_witness :
    (buildQueue ['x', 'y'] ['a', 'b', 'c'] (fun _ => (0, 0))).length = 3 ∧
    updateOutput (buildQueue ['x', 'y'] ['a', 'b', 'c'] (fun _ => (0, 0))) 0
      (fun _ => 'z') = ['a', 'b', 'c'] := by
  have h := scramble_setText_C1 ['x', 'y'] ['a', 'b', 'c'] (fun _ => (0, 0))
    (fun _ => ⟨Nat.succ_pos 39, Nat.succ_pos 39⟩)
  exact ⟨h.1, (h.2.2 0 (fun _ => 'z') (by decide)).1⟩

/-- Scheduling invariant of one `TextScramble` instance: the browser
holds at most one of its frame callbacks, and that callback (when it
exists) is the one recorded in `this.frameRequest` — which is exactly
what makes the `cancelAnimationFrame(this.frameRequest)` in `setText`
a complete cancellation. -/
def loopInv (s : ScrState) : Prop :=
  s.pending = [] ∨ s.pending = [s.frameRequest]

/-- Running `update` with nothing pending schedules at most one new
callback, recorded in `frameRequest`. -/
lemma updateStep_loopInv (s : ScrState) (h : s.pending = []) :
    loopInv (updateStep s) := by
  unfold updateStep
  split
  · exact Or.inl h
  · right
    rw [h]
    rfl

/-- Every event preserves the scheduling invariant. -/
lemma scrStep_loopInv (s : ScrState) (e : ScrEvent) (h : loopInv s) :
    loopInv (scrStep s e) := by
  cases e with
  | setText o n r =>
    apply updateStep_loopInv
    show List.filter _ s.pending = []
    rcases h with h | h
    · rw [h]; rfl
    · rw [h]; simp
  | fire =>
    show loopInv (fireStep s)
    rcases h with h | h
    · have hf : fireStep s = s := by unfold fireStep; rw [h]
      rw [hf]; exact Or.inl h
    · have hf : fireStep s = updateStep { s with pending := [] } := by
        unfold fireStep; rw [h]
      rw [hf]
      exact updateStep_loopInv _ rfl

/-- Whole traces preserve the scheduling invariant. -/
lemma scrRun_loopInv (evs : List ScrEvent) :
    ∀ s : ScrState, loopInv s → loopInv (scrRun s evs) := by
  induction evs with
  | nil => exact fun _ h => h
  | cons e evs ih => exact fun s h => ih (scrStep s e) (scrStep_loopInv s e h)

/-- C2: along every event trace of one `TextScramble` instance —
`setText` calls interleaved with frame-callback deliveries — the
browser never holds more than one scheduled update callback of that
instance: `setText`'s `cancelAnimationFrame(this.frameRequest)` removes
the previous loop before the new queue starts, so two update loops are
never concurrently active. -/
theorem scramble_single_loop_C2 (evs : List ScrEvent) :
    (scrRun scrInit evs).pending.length ≤ 1 := by
  rcases scrRun_loopInv evs scrInit (Or.inl rfl) with h | h <;> rw [h] <;> simp

/-- A promise strictly older than the one `this.resolve` currently
holds, and not yet resolved, can never be resolved: `update` only ever
resolves the promise in the single `resolve` slot, and the slot only
moves forward to fresh promises. -/
def promiseDead (p : ℕ) (s : ScrState) : Prop :=
  p ∉ s.resolved ∧ p < s.resolveSlot ∧ s.resolveSlot < s.nextPromise

/-- `update` preserves deadness: it resolves only the current slot. -/
lemma updateStep_promiseDead (p : ℕ) (s : ScrState) (h : promiseDead p s) :
    promiseDead p (updateStep s) := by
  obtain ⟨h1, h2, h3⟩ := h
  unfold updateStep
  split
  · refine ⟨?_, h2, h3⟩
    simp only [List.mem_append, List.mem_singleton]
    rintro (hc | hc)
    · exact h1 hc
    · omega
  · exact ⟨h1, h2, h3⟩

/-- Every event preserves deadness: a later `setText` only moves the
resolve slot to an even fresher promise. -/
lemma scrStep_promiseDead (p : ℕ) (s : ScrState) (e : ScrEvent)
    (h : promiseDead p s) : promiseDead p (scrStep s e) := by
  cases e with
  | setText o n r =>
    exact updateStep_promiseDead p _ ⟨h.1, lt_trans h.2.1 h.2.2, Nat.lt_succ_self _⟩
  | fire =>
    show promiseDead p (fireStep s)
    unfold fireStep
    cases hp : s.pending with
    | nil => exact h
    | cons a rest => exact updateStep_promiseDead p _ ⟨h.1, h.2.1, h.2.2⟩

/-- Whole traces preserve deadness. -/
lemma scrRun_promiseDead (p : ℕ) (evs : List ScrEvent) :
    ∀ s : ScrState, promiseDead p s → promiseDead p (scrRun s evs) := by
  induction evs with
  | nil => exact fun _ h => h
  | cons e evs ih => exact fun s h => ih (scrStep s e) (scrStep_promiseDead p s e h)

/-- C8: if a `setText` call supersedes a previous one whose promise
(the one currently held in `this.resolve`, hence older than the next
fresh promise) has not yet resolved, that promise is never resolved at
any later point of any continuation of the trace: the second `setText`
overwrites the single resolve slot with its own fresh promise. -/
theorem scramble_superseded_promise_C8 (s : ScrState) (oldT newT : List Char)
    (rands : ℕ → ℕ × ℕ) (evs : List ScrEvent)
    (h1 : s.resolveSlot < s.nextPromise) (h2 : s.resolveSlot ∉ s.resolved) :
    s.resolveSlot ∉
      (scrRun (scrStep s (ScrEvent.setText oldT newT rands)) evs).resolved := by
  have hd : promiseDead s.resolveSlot (scrStep s (ScrEvent.setText oldT newT rands)) :=
    updateStep_promiseDead _ _ ⟨h2, h1, Nat.lt_succ_self _⟩
  exact (scrRun_promiseDead _ evs _ hd).1

/-- Witness for C8: a first `setText` whose queue has not settled, a
superseding second `setText`, then three delivered frames — the first
promise is still unresolved. -/
theorem scramble_superseded_promise_C8_witness :
    (scrStep scrInit (ScrEvent.setText ['x'] ['a'] (fun _ => (1, 1)))).resolveSlot ∉
      (scrRun
        (scrStep (scrStep scrInit (ScrEvent.setText ['x'] ['a'] (fun _ => (1, 1))))
          (ScrEvent.setText ['x'] ['b'] (fun _ => (1, 1))))
        [ScrEvent.fire, ScrEvent.fire, ScrEvent.fire]).resolved :=
  scramble_superseded_promise_C8
    (scrStep scrInit (ScrEvent.setText ['x'] ['a'] (fun _ => (1, 1))))
    ['x'] ['b'] (fun _ => (1, 1)) [ScrEvent.fire, ScrEvent.fire, ScrEvent.fire]
    (by decide) (by decide)
